import Mathlib

/-!
Shallow embedding of the two-stage crawl-and-discover pipeline of
`web_scrapping/webcrawling.py` (class `WebCrawler`), together with proofs of
the spec's claims about it.

Modelling conventions:
* Python strings are `List Char`.
* The external fetch engine (crawl4ai `arun_many`) is an oracle
  `Fetcher : Url → Option Markdown`: `none` models a crawl result whose
  `markdown` attribute is absent/None, `some m` models a result whose
  `markdown.raw_markdown` is `m` (possibly the empty string, which is falsy in
  Python).  `arun_many` returns one result per input URL; we model it as
  returning results in input order (only lengths and memberships are used).
* The external LLM call (`client.chat.completions.parse`) is an oracle
  receiving the system prompt and the (truncated) user content and returning
  `Except Unit LLMResp`; `Except.error` models a call that raised.  The
  source constructs the synchronous `OpenAI` client, so each `parse` call
  executes inside the task-building loop: a raising call escapes to the
  handler at line 210 (skipping all remaining pages' calls), and when every
  call succeeds, `asyncio.gather` over the non-awaitable response objects
  raises TypeError, also caught at line 210 — past its guards the function
  always returns the empty list.  The embedding follows this control flow.
* A Python `set` accumulated from a list is modelled as a duplicate-free list
  in first-insertion order (`pySet`, `setInsert`).  CPython set iteration
  order is implementation-defined (hash order); we fix first-insertion order
  as one representative.  No claim below depends on which unspecified order
  is chosen, only on the absence of an explicit sort in the code.
* Logging and file persistence (`_save_markdowns_to_file`,
  `_save_responses_to_file`) are side effects outside the data flow and are
  not modelled.
-/

/-- URLs are Python strings, modelled as lists of characters. -/
abbrev Url : Type := List Char

/-- Markdown content is a Python string. -/
abbrev Markdown : Type := List Char

/-- A `load` of `\x7b"url": ..., "markdown": ...\x7d` dict as produced by
`WebCrawler.crawl_multi_urls`: both keys are always present there, so we model
the dict as a record.  Code that checks `"markdown" in md and md["markdown"]`
reduces, on such dicts, to a non-emptiness test on the string. -/
structure MarkdownEntry where
  url : List Char
  markdown : List Char
deriving DecidableEq, Repr

/-- The external fetch collaborator: for each URL, either no markdown object
(`none`, a failed crawl) or the raw markdown string. -/
def Fetcher := List Char → Option (List Char)

/-- True iff this per-URL fetch outcome passes the guard
`result.markdown and result.markdown.raw_markdown` in the source. -/
def fetchOk : Option (List Char) → Bool
  | some m => decide (m ≠ [])
  | none => false

/-- Body of the result loop of `crawl_multi_urls` (lines 86-93): a result
with truthy markdown is appended, any other result is logged and skipped. -/
def crawlAppendStep (fetch : Fetcher) (acc : List MarkdownEntry) (u : List Char) :
    List MarkdownEntry :=
  match fetch u with
  | some m => if m ≠ [] then acc ++ [⟨u, m⟩] else acc
  | none => acc

/-- `WebCrawler.crawl_multi_urls` (webcrawling.py lines 54-100): for each URL
the crawl result is inspected; only results with a truthy
`markdown.raw_markdown` are appended to the output, the rest are logged and
dropped.  The `if not urls` guard returns `[]` before the crawler is used. -/
def crawl_multi_urls (urls : List (List Char)) (fetch : Fetcher) : List MarkdownEntry :=
  if urls = [] then []
  else urls.foldl (crawlAppendStep fetch) []

/-- The list of URLs for which `crawl_multi_urls` delegates a fetch to the
external crawler: after the empty guard, `arun_many` issues one fetch per
input URL. -/
def crawl_fetch_invocations (urls : List (List Char)) : List (List Char) :=
  if urls = [] then [] else urls

/-- Python `l.startswith(s)` on char lists. -/
def beginsWith (l s : List Char) : Bool :=
  decide (l.take s.length = s)

/-- Python `l.endswith(s)` on char lists. -/
def finishesWith (l s : List Char) : Bool :=
  decide (l.reverse.take s.length = s.reverse)

/-- Characters that terminate a URL match under the pattern
`https?://[^\s)\]]+`: ASCII whitespace (Python `\s`, restricted to its ASCII
part, which is all the inputs used here contain), the closing parenthesis and
the closing square bracket. -/
def stopChar (c : Char) : Bool :=
  c = ' ' || c = '\t' || c = '\n' || c = '\r' || c = '\x0b' || c = '\x0c' ||
    c = ')' || c = ']'

/-- One attempted regex match of `https?://[^\s)\]]+` anchored at the head of
`cs`: the greedy alternative `https` is tried before `http`, then `://`, then
a maximal non-empty run of non-stop characters.  Returns the matched
substring and the remainder of the text. -/
def matchAt (cs : List Char) : Option (List Char × List Char) :=
  if beginsWith cs ("https://".toList) then
    let rest := cs.drop 8
    let run := rest.takeWhile (fun c => !stopChar c)
    if run = [] then none
    else some ("https://".toList ++ run, rest.drop run.length)
  else if beginsWith cs ("http://".toList) then
    let rest := cs.drop 7
    let run := rest.takeWhile (fun c => !stopChar c)
    if run = [] then none
    else some ("http://".toList ++ run, rest.drop run.length)
  else none

/-- Fuel-indexed scanner underlying `re.findall`: leftmost, non-overlapping
matches; on failure the scan advances one character.  Fuel bounds recursion
depth; `findall` supplies fuel equal to the text length, which suffices
because every step consumes at least one character. -/
def findallAux : Nat → List Char → List (List Char)
  | 0, _ => []
  | _ + 1, [] => []
  | n + 1, c :: rest =>
    match matchAt (c :: rest) with
    | some (m, rem) => m :: findallAux n rem
    | none => findallAux n rest

/-- `re.findall(url_pattern, markdown_content)` for the fixed default pattern
`https?://[^\s)\]]+` (webcrawling.py line 105, 121). -/
def findall (cs : List Char) : List (List Char) :=
  findallAux cs.length cs

/-- The filter of webcrawling.py lines 123-126:
`link.endswith((".html", ".htm")) and link.startswith("http")`. -/
def htmlFilter (link : List Char) : Bool :=
  (finishesWith link (".html".toList) || finishesWith link (".htm".toList)) &&
    beginsWith link ("http".toList)

/-- Adding one element to a Python set, modelled in first-insertion order. -/
def setInsert (acc : List (List Char)) (x : List Char) : List (List Char) :=
  if x ∈ acc then acc else acc ++ [x]

/-- `list(set(xs))` for a list of strings, modelled in first-insertion
order (see the header comment on set-order modelling). -/
def pySet (xs : List (List Char)) : List (List Char) :=
  xs.foldl setInsert []

/-- `WebCrawler.extract_urls_with_regex` (webcrawling.py lines 102-130):
empty content returns `[]`; otherwise the regex matches are filtered for
HTML-suffixed absolute http links and deduplicated via set semantics. -/
def extract_urls_with_regex (markdown_content : List Char) : List (List Char) :=
  if markdown_content = [] then []
  else pySet ((findall markdown_content).filter htmlFilter)

/-- Python `set.update` with a list of strings, in first-insertion order. -/
def setUpdate (acc : List (List Char)) (xs : List (List Char)) : List (List Char) :=
  xs.foldl setInsert acc

/-- Body of the accumulation loop of `extract_urls_from_markdowns_with_regex`
(lines 150-153): entries with truthy markdown contribute their extracted
URLs to the set. -/
def regexAccumStep (acc : List (List Char)) (md : MarkdownEntry) : List (List Char) :=
  if md.markdown ≠ [] then setUpdate acc (extract_urls_with_regex md.markdown)
  else acc

/-- `WebCrawler.extract_urls_from_markdowns_with_regex` (webcrawling.py lines
132-157): per-markdown regex extraction accumulated into one set, returned as
a list with no further ordering applied. -/
def extract_urls_from_markdowns_with_regex (markdowns : List MarkdownEntry) :
    List (List Char) :=
  if markdowns = [] then []
  else markdowns.foldl regexAccumStep []

/-- A parsed LLM response as the pipeline would consume it at line 277 of
webcrawling.py, modelled by the projection that line reads.  (The real
responses are `ParsedChatCompletion` objects without a `.get` method — see
`respUrl` — but, as proved in `extract_llm_always_nil` below, the response
list reaching line 277 is always empty, so only the empty-list case of this
model is ever exercised.) -/
structure LLMResp where
  url : Option (List Char)
deriving DecidableEq, Repr

/-- The external LLM collaborator: given the system prompt and the (already
truncated) user content, one synchronous `client.chat.completions.parse`
call either raises (`Except.error`: timeout, malformed structured response)
or returns a parsed response object. -/
def Extractor := List Char → List Char → Except Unit LLMResp

/-- Truthiness of `self.system_prompt`: `None` and the empty string are
falsy. -/
def truthyOpt : Option (List Char) → Bool
  | none => false
  | some s => decide (s ≠ [])

/-- The task-building loop of `extract_urls_from_markdown_with_llm` (lines
177-188) run with the synchronous client: each `parse` call executes in
loop order, its result appended to `tasks`; the first raising call aborts
the loop, the exception escaping to the handler at line 210
(`Except.error`). -/
def llmRunCalls (oracle : Extractor) (sp : List Char) :
    List MarkdownEntry → Except Unit (List LLMResp)
  | [] => Except.ok []
  | md :: rest =>
    if md.markdown ≠ [] then
      match oracle sp (md.markdown.take 4000) with
      | Except.error e => Except.error e
      | Except.ok v =>
        match llmRunCalls oracle sp rest with
        | Except.error e => Except.error e
        | Except.ok vs => Except.ok (v :: vs)
    else llmRunCalls oracle sp rest

/-- The user contents actually sent to the LLM by the loop of lines
177-188, in issue order: one call per entry with truthy markdown, content
truncated to 4000 characters (`md["markdown"][:4000]`, line 184), stopping
at (and including) the first call that raises — entries after a raising
call are never sent. -/
def llmIssuedLoop (oracle : Extractor) (sp : List Char) :
    List MarkdownEntry → List (List Char)
  | [] => []
  | md :: rest =>
    if md.markdown ≠ [] then
      match oracle sp (md.markdown.take 4000) with
      | Except.error _ => [md.markdown.take 4000]
      | Except.ok _ => md.markdown.take 4000 :: llmIssuedLoop oracle sp rest
    else llmIssuedLoop oracle sp rest

/-- The requests `extract_urls_from_markdown_with_llm` issues, including its
entry guard `if not markdowns or not self.system_prompt` (line 172): with no
markdowns or a falsy prompt, no call is made; otherwise the sequential loop
runs until it finishes or a call raises. -/
def llm_issued_requests (markdowns : List MarkdownEntry)
    (system_prompt : Option (List Char)) (oracle : Extractor) : List (List Char) :=
  if markdowns = [] ∨ truthyOpt system_prompt = false then []
  else
    match system_prompt with
    | none => []
    | some sp => llmIssuedLoop oracle sp markdowns

/-- `WebCrawler.extract_urls_from_markdown_with_llm` (webcrawling.py lines
159-212): guard on empty input or falsy prompt; then the synchronous
task-building loop runs — if any call raises, the exception is caught at
line 210 and `[]` returned; if no task was built, `[]` is returned at line
191; otherwise `asyncio.gather(*tasks, return_exceptions=True)` at line 193
raises TypeError (the tasks are plain response objects, not awaitables),
which is caught at line 210, returning `[]`.  The exception-filtering loop
of lines 196-201 is therefore unreachable. -/
def extract_urls_from_markdown_with_llm (markdowns : List MarkdownEntry)
    (system_prompt : Option (List Char)) (oracle : Extractor) : List LLMResp :=
  if markdowns = [] ∨ truthyOpt system_prompt = false then []
  else
    match system_prompt with
    | none => []
    | some sp =>
      match llmRunCalls oracle sp markdowns with
      | Except.error _ => []
      | Except.ok tasks =>
        if tasks.isEmpty then []
        else []

/-- Line 277 of webcrawling.py:
`[response.get("url", "") for response in extracted_urls if response.get("url")]`.
The responses are `ParsedChatCompletion` objects with no `.get` method, so
this line would raise AttributeError on any non-empty response list; it is
only ever applied to the empty list (`extract_llm_always_nil`), where the
model of the field access is immaterial. -/
def respUrl (r : LLMResp) : Option (List Char) :=
  match r.url with
  | some u => if u ≠ [] then some u else none
  | none => none

/-- The URL list handed to stage 2 by `run_crawling_pipeline` (lines
272-280): the LLM path is taken only when `use_llm_extraction` is set AND the
system prompt is truthy, otherwise the regex path runs. -/
def pipeline_urls_to_crawl (system_prompt : Option (List Char))
    (initial_markdowns : List MarkdownEntry) (use_llm_extraction : Bool)
    (oracle : Extractor) : List (List Char) :=
  if use_llm_extraction && truthyOpt system_prompt then
    (extract_urls_from_markdown_with_llm initial_markdowns system_prompt oracle).filterMap
      respUrl
  else extract_urls_from_markdowns_with_regex initial_markdowns

/-- `WebCrawler.run_crawling_pipeline` (webcrawling.py lines 241-301): empty
seed guard; stage-1 fetch; URL discovery (LLM or regex); if nothing was
discovered return the stage-1 results; otherwise fetch the discovered URLs
and return stage-1 results followed by stage-2 results. -/
def run_crawling_pipeline (system_prompt : Option (List Char))
    (urls : List (List Char)) (use_llm_extraction : Bool) (fetch : Fetcher)
    (oracle : Extractor) : List MarkdownEntry :=
  if urls = [] then []
  else
    let initial_markdowns := crawl_multi_urls urls fetch
    let urls_to_crawl :=
      pipeline_urls_to_crawl system_prompt initial_markdowns use_llm_extraction oracle
    if urls_to_crawl = [] then initial_markdowns
    else initial_markdowns ++ crawl_multi_urls urls_to_crawl fetch

/-- The URLs for which `run_crawling_pipeline` delegates fetches to the
external crawler, in issue order: none when the seed set is empty; otherwise
the stage-1 batch and, when discovery found anything, the stage-2 batch. -/
def pipeline_fetch_invocations (system_prompt : Option (List Char))
    (urls : List (List Char)) (use_llm_extraction : Bool) (fetch : Fetcher)
    (oracle : Extractor) : List (List Char) :=
  if urls = [] then []
  else
    let initial_markdowns := crawl_multi_urls urls fetch
    let urls_to_crawl :=
      pipeline_urls_to_crawl system_prompt initial_markdowns use_llm_extraction oracle
    crawl_fetch_invocations urls ++
      if urls_to_crawl = [] then [] else crawl_fetch_invocations urls_to_crawl

/-- The configuration error the spec postulates for model discovery selected
without a prompt.  The source defines no such exception. -/
inductive ConfigurationError where
  | missingPrompt
deriving DecidableEq, Repr

/-- The crawler state built by `WebCrawler.__init__` (webcrawling.py lines
17-52), restricted to the fields the pipeline logic reads.  The OpenAI
client, the crawl4ai run config and the optional dispatcher are external
collaborators whose construction stores only the flags kept here. -/
structure WebCrawlerState where
  system_prompt : Option (List Char)
  max_concurrent_requests : Nat
  enable_cache : Bool
  check_robots_txt : Bool
  enable_memory_management : Bool
deriving DecidableEq, Repr

/-- `WebCrawler.__init__`: stores its arguments; performs no validation of
any kind. -/
def WebCrawler.init (system_prompt : Option (List Char))
    (max_concurrent_requests : Nat) (enable_cache : Bool)
    (check_robots_txt : Bool) (enable_memory_management : Bool) :
    WebCrawlerState :=
  ⟨system_prompt, max_concurrent_requests, enable_cache, check_robots_txt,
    enable_memory_management⟩

/-- `WebCrawler.__init__` with its error behaviour made explicit in the
codomain, so that the spec's construction-time-failure claim is statable: the
source constructor contains no validation and no raise, so every input maps
to `Except.ok`. -/
def WebCrawler.initChecked (system_prompt : Option (List Char))
    (max_concurrent_requests : Nat) (enable_cache : Bool)
    (check_robots_txt : Bool) (enable_memory_management : Bool) :
    Except ConfigurationError WebCrawlerState :=
  Except.ok
    (WebCrawler.init system_prompt max_concurrent_requests enable_cache
      check_robots_txt enable_memory_management)

/-! ### Concrete inputs used in counterexamples and witnesses -/

/-- A seed URL that itself passes the HTML filter. -/
def seedSelf : List Char := "http://a.test/p.html".toList

/-- A seed URL that does not pass the HTML filter. -/
def seedRoot : List Char := "http://s.test/".toList

/-- A fetcher for which every crawl result lacks markdown. -/
def fetchNone : Fetcher := fun _ => none

/-- A fetcher whose pages all link back to `seedSelf`. -/
def fetchSelf : Fetcher := fun _ => some ("see http://a.test/p.html".toList)

/-- A fetcher whose pages contain two HTML links in reverse lexicographic
order. -/
def fetchTwo : Fetcher :=
  fun _ => some ("http://b.test/x.html http://a.test/y.html".toList)

/-- The lexicographically larger of the two links served by `fetchTwo`. -/
def urlB2 : List Char := "http://b.test/x.html".toList

/-- The lexicographically smaller of the two links served by `fetchTwo`. -/
def urlA2 : List Char := "http://a.test/y.html".toList

/-- A fetcher serving one-character markdown for `seedRoot` and two-character
markdown for every other URL. -/
def fetchMixed : Fetcher :=
  fun u => if u = seedRoot then some ("x".toList) else some ("yy".toList)

/-- An extractor whose every call raises. -/
def oracleFail : Extractor := fun _ _ => Except.error ()

/-- An extractor that raises exactly on one-character content. -/
def oracleSel : Extractor :=
  fun _ c =>
    if c.length = 1 then Except.error ()
    else Except.ok ⟨some ("http://u.test/a.html".toList)⟩

/-- A page whose content makes `oracleSel` raise. -/
def pFail : MarkdownEntry := ⟨"http://p.test/".toList, "x".toList⟩

/-- A page whose content makes `oracleSel` answer. -/
def qOk : MarkdownEntry := ⟨"http://q.test/".toList, "yy".toList⟩

/-- A concrete non-empty system prompt. -/
def spC : List Char := "extract urls".toList

/-- Lexicographic order on strings, used to state (non-)sortedness. -/
def lexLe : List Char → List Char → Bool
  | [], _ => true
  | _ :: _, [] => false
  | a :: as, b :: bs => if a < b then true else if a = b then lexLe as bs else false

/-! ### Helper lemmas: crawl_multi_urls -/

/-- One crawl result viewed as an optional output entry: `some` exactly when
the guard of lines 87-91 accepts it. -/
def crawlStep (fetch : Fetcher) (u : List Char) : Option MarkdownEntry :=
  match fetch u with
  | some m => if m ≠ [] then some ⟨u, m⟩ else none
  | none => none

lemma foldl_crawlAppendStep (fetch : Fetcher) (l : List (List Char)) :
    ∀ acc : List MarkdownEntry,
      l.foldl (crawlAppendStep fetch) acc = acc ++ l.filterMap (crawlStep fetch) := by
  induction l with
  | nil => intro acc; simp
  | cons u t ih =>
    intro acc
    simp only [List.foldl_cons, List.filterMap_cons]
    cases h : fetch u with
    | none => simp [crawlAppendStep, crawlStep, h, ih]
    | some m =>
      by_cases hm : m = []
      · simp [crawlAppendStep, crawlStep, h, hm, ih]
      · simp [crawlAppendStep, crawlStep, h, hm, ih]

lemma crawl_multi_urls_eq_filterMap (urls : List (List Char)) (fetch : Fetcher) :
    crawl_multi_urls urls fetch = urls.filterMap (crawlStep fetch) := by
  unfold crawl_multi_urls
  by_cases h : urls = []
  · simp [h]
  · simp [h, foldl_crawlAppendStep]

lemma length_filterMap_eq_length_filter {α β : Type} (f : α → Option β) (l : List α) :
    (l.filterMap f).length = (l.filter (fun a => (f a).isSome)).length := by
  induction l with
  | nil => rfl
  | cons a t ih =>
    simp only [List.filterMap_cons, List.filter_cons]
    cases h : f a <;> simp [h, ih]

lemma crawlStep_isSome (fetch : Fetcher) (u : List Char) :
    (crawlStep fetch u).isSome = fetchOk (fetch u) := by
  cases h : fetch u with
  | none => simp [crawlStep, fetchOk, h]
  | some m =>
    by_cases hm : m = [] <;> simp [crawlStep, fetchOk, h, hm]

lemma mem_crawl_multi_urls {e : MarkdownEntry} {urls : List (List Char)}
    {fetch : Fetcher} :
    e ∈ crawl_multi_urls urls fetch ↔ ∃ u ∈ urls, crawlStep fetch u = some e := by
  rw [crawl_multi_urls_eq_filterMap]
  simp [List.mem_filterMap]

lemma crawl_markdown_ne_nil {e : MarkdownEntry} {urls : List (List Char)}
    {fetch : Fetcher} (h : e ∈ crawl_multi_urls urls fetch) : e.markdown ≠ [] := by
  rcases mem_crawl_multi_urls.mp h with ⟨u, _, hstep⟩
  unfold crawlStep at hstep
  cases hm : fetch u with
  | none => rw [hm] at hstep; cases hstep
  | some m =>
    rw [hm] at hstep
    by_cases hnil : m = []
    · simp [hnil] at hstep
    · simp [hnil] at hstep
      subst hstep
      simpa using hnil

/-! ### Helper lemmas: the Python-set model -/

lemma mem_setInsert {acc : List (List Char)} {x a : List Char} :
    a ∈ setInsert acc x ↔ a ∈ acc ∨ a = x := by
  unfold setInsert
  by_cases h : x ∈ acc
  · simp only [if_pos h]
    constructor
    · exact Or.inl
    · rintro (ha | rfl)
      · exact ha
      · exact h
  · simp [if_neg h]

lemma nodup_setInsert {acc : List (List Char)} {x : List Char}
    (h : acc.Nodup) : (setInsert acc x).Nodup := by
  unfold setInsert
  by_cases hx : x ∈ acc
  · simpa [if_pos hx]
  · rw [if_neg hx, List.nodup_append]
    refine ⟨h, List.nodup_singleton x, ?hd⟩
    intro a ha hax
    rw [List.mem_singleton] at hax
    subst hax
    exact hx ha

lemma mem_setUpdate {xs : List (List Char)} :
    ∀ {acc : List (List Char)} {a : List Char},
      a ∈ setUpdate acc xs ↔ a ∈ acc ∨ a ∈ xs := by
  induction xs with
  | nil => intro acc a; simp [setUpdate]
  | cons x t ih =>
    intro acc a
    show a ∈ setUpdate (setInsert acc x) t ↔ _
    rw [ih, mem_setInsert]
    simp only [List.mem_cons]
    tauto

lemma nodup_setUpdate {xs : List (List Char)} :
    ∀ {acc : List (List Char)}, acc.Nodup → (setUpdate acc xs).Nodup := by
  induction xs with
  | nil => intro acc h; simpa [setUpdate]
  | cons x t ih =>
    intro acc h
    exact ih (nodup_setInsert h)

lemma pySet_eq_setUpdate (xs : List (List Char)) : pySet xs = setUpdate [] xs := rfl

lemma mem_pySet {xs : List (List Char)} {a : List Char} :
    a ∈ pySet xs ↔ a ∈ xs := by
  rw [pySet_eq_setUpdate, mem_setUpdate]
  simp

lemma nodup_pySet (xs : List (List Char)) : (pySet xs).Nodup := by
  rw [pySet_eq_setUpdate]
  exact nodup_setUpdate List.nodup_nil

lemma length_pySet_eq_length_dedup (xs : List (List Char)) :
    (pySet xs).length = xs.dedup.length := by
  have hperm : List.Perm (pySet xs) xs.dedup := by
    rw [List.perm_ext_iff_of_nodup (nodup_pySet xs) (List.nodup_dedup xs)]
    intro a
    rw [mem_pySet, List.mem_dedup]
  exact hperm.length_eq

/-! ### Helper lemmas: multi-markdown regex extraction -/

lemma nodup_foldl_regexAccumStep (mds : List MarkdownEntry) :
    ∀ {acc : List (List Char)}, acc.Nodup → (mds.foldl regexAccumStep acc).Nodup := by
  induction mds with
  | nil => intro acc h; simpa
  | cons md t ih =>
    intro acc h
    simp only [List.foldl_cons]
    apply ih
    unfold regexAccumStep
    by_cases hmd : md.markdown ≠ []
    · rw [if_pos hmd]
      exact nodup_setUpdate h
    · rwa [if_neg hmd]

lemma mem_foldl_regexAccumStep (mds : List MarkdownEntry) :
    ∀ {acc : List (List Char)} {u : List Char},
      u ∈ mds.foldl regexAccumStep acc ↔
        u ∈ acc ∨ ∃ md ∈ mds, md.markdown ≠ [] ∧ u ∈ extract_urls_with_regex md.markdown := by
  induction mds with
  | nil => intro acc u; simp
  | cons md t ih =>
    intro acc u
    simp only [List.foldl_cons]
    rw [ih]
    unfold regexAccumStep
    by_cases hmd : md.markdown ≠ []
    · rw [if_pos hmd, mem_setUpdate]
      simp only [List.mem_cons]
      constructor
      · rintro ((hu | hu) | ⟨md2, hmd2, hne, hu⟩)
        · exact Or.inl hu
        · exact Or.inr ⟨md, Or.inl rfl, hmd, hu⟩
        · exact Or.inr ⟨md2, Or.inr hmd2, hne, hu⟩
      · rintro (hu | ⟨md2, (rfl | hmd2), hne, hu⟩)
        · exact Or.inl (Or.inl hu)
        · exact Or.inl (Or.inr hu)
        · exact Or.inr ⟨md2, hmd2, hne, hu⟩
    · rw [if_neg hmd]
      simp only [List.mem_cons]
      constructor
      · rintro (hu | ⟨md2, hmd2, hne, hu⟩)
        · exact Or.inl hu
        · exact Or.inr ⟨md2, Or.inr hmd2, hne, hu⟩
      · rintro (hu | ⟨md2, (rfl | hmd2), hne, hu⟩)
        · exact Or.inl hu
        · exact absurd hne hmd
        · exact Or.inr ⟨md2, hmd2, hne, hu⟩

lemma nodup_extract_urls_from_markdowns_with_regex (mds : List MarkdownEntry) :
    (extract_urls_from_markdowns_with_regex mds).Nodup := by
  unfold extract_urls_from_markdowns_with_regex
  by_cases h : mds = []
  · simp [h]
  · rw [if_neg h]
    exact nodup_foldl_regexAccumStep mds List.nodup_nil

lemma mem_extract_urls_from_markdowns_with_regex {mds : List MarkdownEntry}
    {u : List Char} :
    u ∈ extract_urls_from_markdowns_with_regex mds ↔
      ∃ md ∈ mds, md.markdown ≠ [] ∧ u ∈ extract_urls_with_regex md.markdown := by
  unfold extract_urls_from_markdowns_with_regex
  by_cases h : mds = []
  · simp [h]
  · rw [if_neg h, mem_foldl_regexAccumStep]
    simp

/-! ### Helper lemmas: LLM extraction (synchronous client) -/

lemma extract_llm_always_nil (mds : List MarkdownEntry)
    (prompt : Option (List Char)) (oracle : Extractor) :
    extract_urls_from_markdown_with_llm mds prompt oracle = [] := by
  unfold extract_urls_from_markdown_with_llm
  by_cases hg : mds = [] ∨ truthyOpt prompt = false
  · rw [if_pos hg]
  · rw [if_neg hg]
    cases prompt with
    | none => rfl
    | some sp =>
      cases h : llmRunCalls oracle sp mds with
      | error e => simp [h]
      | ok tasks => simp only [h]; split <;> rfl

lemma length_llmIssuedLoop_le (oracle : Extractor) (sp : List Char)
    (mds : List MarkdownEntry) :
    (llmIssuedLoop oracle sp mds).length ≤ mds.length := by
  induction mds with
  | nil => simp [llmIssuedLoop]
  | cons md rest ih =>
    unfold llmIssuedLoop
    by_cases h : md.markdown ≠ []
    · rw [if_pos h]
      cases horacle : oracle sp (md.markdown.take 4000) with
      | error e =>
        show [md.markdown.take 4000].length ≤ (md :: rest).length
        simp
      | ok v =>
        show (md.markdown.take 4000 :: llmIssuedLoop oracle sp rest).length
          ≤ (md :: rest).length
        simp only [List.length_cons]
        omega
    · rw [if_neg h]
      exact le_trans ih (Nat.le_succ rest.length)

lemma mem_llmIssuedLoop_length_le (oracle : Extractor) (sp : List Char) :
    ∀ (mds : List MarkdownEntry) (r : List Char),
      r ∈ llmIssuedLoop oracle sp mds → r.length ≤ 4000 := by
  intro mds
  induction mds with
  | nil => intro r hr; simp [llmIssuedLoop] at hr
  | cons md rest ih =>
    intro r hr
    unfold llmIssuedLoop at hr
    by_cases h : md.markdown ≠ []
    · rw [if_pos h] at hr
      cases horacle : oracle sp (md.markdown.take 4000) with
      | error e =>
        simp only [horacle, List.mem_singleton] at hr
        subst hr
        rw [List.length_take]
        omega
      | ok v =>
        simp only [horacle, List.mem_cons] at hr
        rcases hr with rfl | hr
        · rw [List.length_take]; omega
        · exact ih r hr
    · rw [if_neg h] at hr
      exact ih r hr

lemma llmIssuedLoop_all_ok (oracle : Extractor) (sp : List Char) :
    ∀ mds : List MarkdownEntry,
      (∀ md ∈ mds, md.markdown ≠ []) →
      (∀ md ∈ mds, (oracle sp (md.markdown.take 4000)).isOk = true) →
      llmIssuedLoop oracle sp mds = mds.map (fun md => md.markdown.take 4000) := by
  intro mds
  induction mds with
  | nil => intro _ _; rfl
  | cons md rest ih =>
    intro hne hok
    have hmd : md.markdown ≠ [] := hne md (List.mem_cons_self md rest)
    have hmdok := hok md (List.mem_cons_self md rest)
    unfold llmIssuedLoop
    rw [if_pos hmd]
    cases horacle : oracle sp (md.markdown.take 4000) with
    | error e =>
      rw [horacle] at hmdok
      simp [Except.isOk, Except.toBool] at hmdok
    | ok v =>
      show md.markdown.take 4000 :: llmIssuedLoop oracle sp rest
        = (md :: rest).map (fun md => md.markdown.take 4000)
      simp only [List.map_cons]
      rw [ih (fun x hx => hne x (List.mem_cons_of_mem md hx))
            (fun x hx => hok x (List.mem_cons_of_mem md hx))]

/-! ### Extra helper lemmas for the pipeline -/

lemma pipeline_urls_to_crawl_regex_path (prompt : Option (List Char))
    (initial : List MarkdownEntry) (oracle : Extractor) :
    pipeline_urls_to_crawl prompt initial false oracle =
      extract_urls_from_markdowns_with_regex initial := by
  unfold pipeline_urls_to_crawl
  simp

lemma pipeline_urls_to_crawl_none_prompt (initial : List MarkdownEntry)
    (useLLM : Bool) (oracle : Extractor) :
    pipeline_urls_to_crawl none initial useLLM oracle =
      extract_urls_from_markdowns_with_regex initial := by
  unfold pipeline_urls_to_crawl
  simp [truthyOpt]

lemma extract_llm_none_prompt (mds : List MarkdownEntry) (oracle : Extractor) :
    extract_urls_from_markdown_with_llm mds none oracle = [] := by
  unfold extract_urls_from_markdown_with_llm
  simp [truthyOpt]

lemma extract_regex_multi_nil :
    extract_urls_from_markdowns_with_regex [] = [] := rfl

lemma pipeline_urls_to_crawl_nil (prompt : Option (List Char)) (useLLM : Bool)
    (oracle : Extractor) :
    pipeline_urls_to_crawl prompt [] useLLM oracle = [] := by
  unfold pipeline_urls_to_crawl
  by_cases h : (useLLM && truthyOpt prompt) = true
  · rw [if_pos h]
    unfold extract_urls_from_markdown_with_llm
    simp
  · rw [if_neg h]
    rfl

/-! ### Claim theorems -/

/-- C1 (counterexample): the batch fetch does NOT return one result per
requested URL.  With a fetcher that yields no markdown for the single
requested URL, `crawl_multi_urls` returns an empty list, so the output is
shorter than the input: the failure is dropped, not represented. -/
theorem C1_counterexample :
    ¬ ((crawl_multi_urls [seedSelf] fetchNone).length = [seedSelf].length) := by
  decide

/-- C1 (amended): the batch fetch returns exactly one entry per URL whose
fetch produced non-empty markdown; URLs whose fetch failed or produced no
markdown are dropped, so the output length equals the number of successful
fetches and is at most the input length. -/
theorem C1_crawl_length :
    ∀ (urls : List (List Char)) (fetch : Fetcher),
      (crawl_multi_urls urls fetch).length
          = (urls.filter (fun u => fetchOk (fetch u))).length ∧
        (crawl_multi_urls urls fetch).length ≤ urls.length := by
  intro urls fetch
  have h1 : (crawl_multi_urls urls fetch).length
      = (urls.filter (fun u => fetchOk (fetch u))).length := by
    rw [crawl_multi_urls_eq_filterMap, length_filterMap_eq_length_filter]
    have hfun : (fun a => (crawlStep fetch a).isSome)
        = fun u => fetchOk (fetch u) := funext (crawlStep_isSome fetch)
    rw [hfun]
  refine ⟨h1, ?_⟩
  rw [h1]
  exact List.length_filter_le _ urls

/-- C2 (counterexample): in a concrete run the URL list passed to the
stage-2 fetch contains `seedSelf`, which is also a successful stage-1 result;
the pipeline therefore fetches that URL twice in one run. -/
theorem C2_counterexample :
    seedSelf ∈ pipeline_urls_to_crawl none (crawl_multi_urls [seedSelf] fetchSelf)
        false oracleFail ∧
      seedSelf ∈ (crawl_multi_urls [seedSelf] fetchSelf).map MarkdownEntry.url ∧
      (pipeline_fetch_invocations none [seedSelf] false fetchSelf oracleFail).count
          seedSelf = 2 := by
  decide

/-- C2 (amended): the discovered URL set handed to stage 2 is exactly the
union of the per-page regex extractions over the stage-1 results — no URL is
removed for already being a successful stage-1 fetch, so the two sets may
intersect. -/
theorem C2_no_stage1_filtering :
    ∀ (prompt : Option (List Char)) (initial : List MarkdownEntry)
      (oracle : Extractor),
      pipeline_urls_to_crawl prompt initial false oracle
          = extract_urls_from_markdowns_with_regex initial ∧
        ∀ u : List Char,
          u ∈ pipeline_urls_to_crawl prompt initial false oracle ↔
            ∃ md ∈ initial, md.markdown ≠ [] ∧ u ∈ extract_urls_with_regex md.markdown := by
  intro prompt initial oracle
  have h := pipeline_urls_to_crawl_regex_path prompt initial oracle
  refine ⟨h, fun u => ?_⟩
  rw [h, mem_extract_urls_from_markdowns_with_regex]

/-- C3 (counterexample): constructing the crawler with model discovery in
mind but no system prompt succeeds (no ConfigurationError is raised at
construction), and a subsequent run with `use_llm_extraction = True` still
performs fetches — the error the spec requires never occurs. -/
theorem C3_counterexample :
    WebCrawler.initChecked none 3 true true false
        = Except.ok (WebCrawler.init none 3 true true false) ∧
      pipeline_fetch_invocations none [seedSelf] true fetchSelf oracleFail ≠ [] := by
  exact ⟨rfl, by decide⟩

/-- C3 (amended): construction performs no validation and never fails,
whatever the configuration; selecting LLM extraction without a system prompt
is not an error — at run time the pipeline silently takes the regex path. -/
theorem C3_init_never_fails :
    ∀ (p : Option (List Char)) (m : Nat) (c r mm : Bool),
      WebCrawler.initChecked p m c r mm = Except.ok (WebCrawler.init p m c r mm) ∧
        ∀ (urls : List (List Char)) (fetch : Fetcher) (oracle : Extractor),
          run_crawling_pipeline none urls true fetch oracle
            = run_crawling_pipeline none urls false fetch oracle := by
  intro p m c r mm
  refine ⟨rfl, fun urls fetch oracle => ?_⟩
  unfold run_crawling_pipeline
  simp only [pipeline_urls_to_crawl_none_prompt]

/-- C4: with an empty URL list, the batch fetch returns an empty sequence and
issues no fetch; with an empty seed set, the pipeline returns an empty corpus
and issues no fetch. -/
theorem C4_empty_input_noop :
    ∀ (fetch : Fetcher) (oracle : Extractor) (prompt : Option (List Char))
      (useLLM : Bool),
      crawl_multi_urls [] fetch = [] ∧
        crawl_fetch_invocations [] = [] ∧
        run_crawling_pipeline prompt [] useLLM fetch oracle = [] ∧
        pipeline_fetch_invocations prompt [] useLLM fetch oracle = [] := by
  intro fetch oracle prompt useLLM
  exact ⟨rfl, rfl, rfl, rfl⟩

/-- C5: URL extraction on empty text returns the empty list; on any text the
result is duplicate-free, every element passes the HTML filter, and the
cardinality is at most the number of distinct matching substrings that pass
the filter. -/
theorem C5_extract_urls_with_regex_spec :
    extract_urls_with_regex [] = [] ∧
      ∀ text : List Char,
        (extract_urls_with_regex text).Nodup ∧
          (∀ u ∈ extract_urls_with_regex text, htmlFilter u = true) ∧
          (extract_urls_with_regex text).length
            ≤ ((findall text).filter htmlFilter).dedup.length := by
  refine ⟨rfl, fun text => ?_⟩
  unfold extract_urls_with_regex
  by_cases h : text = []
  · simp [h]
  · rw [if_neg h]
    refine ⟨nodup_pySet _, ?_, ?_⟩
    · intro u hu
      rw [mem_pySet] at hu
      exact List.of_mem_filter hu
    · exact le_of_eq (length_pySet_eq_length_dedup _)

/-- C5 (witness): the theorem applied to a concrete text, discharging the
membership hypothesis there. -/
theorem C5_witness :
    htmlFilter ("http://a.test/p.html".toList) = true :=
  (C5_extract_urls_with_regex_spec.2 ("see http://a.test/p.html".toList)).2.1
    ("http://a.test/p.html".toList) (by decide)

/-- C6: when discovery finds no URLs the pipeline returns exactly the
stage-1 results; otherwise it returns the stage-1 results followed by the
stage-2 results, so every stage-1 entry precedes every stage-2 entry. -/
theorem C6_merge_order :
    ∀ (prompt : Option (List Char)) (urls : List (List Char)) (useLLM : Bool)
      (fetch : Fetcher) (oracle : Extractor),
      run_crawling_pipeline prompt urls useLLM fetch oracle
          = (if pipeline_urls_to_crawl prompt (crawl_multi_urls urls fetch) useLLM
                oracle = []
             then crawl_multi_urls urls fetch
             else crawl_multi_urls urls fetch ++
               crawl_multi_urls
                 (pipeline_urls_to_crawl prompt (crawl_multi_urls urls fetch) useLLM
                   oracle) fetch) ∧
        (run_crawling_pipeline prompt urls useLLM fetch oracle).take
            (crawl_multi_urls urls fetch).length
          = crawl_multi_urls urls fetch := by
  intro prompt urls useLLM fetch oracle
  by_cases hurls : urls = []
  · subst hurls
    have hcr : crawl_multi_urls [] fetch = [] := rfl
    have hu2 : pipeline_urls_to_crawl prompt (crawl_multi_urls [] fetch) useLLM oracle
        = [] := by
      rw [hcr]; exact pipeline_urls_to_crawl_nil prompt useLLM oracle
    constructor
    · rw [hu2, if_pos rfl, hcr]
      rfl
    · rw [hcr]
      rfl
  · have hrun : run_crawling_pipeline prompt urls useLLM fetch oracle
        = (if pipeline_urls_to_crawl prompt (crawl_multi_urls urls fetch) useLLM
              oracle = []
           then crawl_multi_urls urls fetch
           else crawl_multi_urls urls fetch ++
             crawl_multi_urls
               (pipeline_urls_to_crawl prompt (crawl_multi_urls urls fetch) useLLM
                 oracle) fetch) := by
      unfold run_crawling_pipeline
      rw [if_neg hurls]
    refine ⟨hrun, ?_⟩
    rw [hrun]
    by_cases hu2 : pipeline_urls_to_crawl prompt (crawl_multi_urls urls fetch) useLLM
        oracle = []
    · rw [if_pos hu2, List.take_length]
    · rw [if_neg hu2, List.take_left]

/-- C7 (code evaluated at the failing input): with the synchronous client, a
raising call on the first page prevents the second page's call from ever
being issued and makes the whole discovery step return the empty list; the
second page alone would have received its call.  Per-page extraction failure
is therefore not local in the source, contradicting the claim and the dead
exception-filtering loop of lines 196-201 that was written to contain it. -/
theorem C7_failure_not_local :
    extract_urls_from_markdown_with_llm [pFail, qOk] (some spC) oracleSel = [] ∧
      llm_issued_requests [pFail, qOk] (some spC) oracleSel
          = [pFail.markdown.take 4000] ∧
      llm_issued_requests [qOk] (some spC) oracleSel
          = [qOk.markdown.take 4000] := by
  decide

/-- C8 (counterexample): in a concrete run in which the extractor raises on
the first fetched page, only one request is issued for the two successful
fetched pages — the second page's content is never sent to the Extractor,
refuting the one-call-per-page claim. -/
theorem C8_counterexample :
    ¬ ((llm_issued_requests (crawl_multi_urls [seedRoot, seedSelf] fetchMixed)
          (some spC) oracleSel).length
        = (crawl_multi_urls [seedRoot, seedSelf] fetchMixed).length) := by
  decide

/-- C8 (amended): every request actually sent to the Extractor carries the
page content truncated to at most 4000 characters (the source's
`contentTruncationLimit`); the synchronous calls are issued sequentially, at
most one per fetched page, and when no call raises exactly one call is
issued per successful fetched page. -/
theorem C8_truncation_sequential_calls :
    ∀ (urls : List (List Char)) (fetch : Fetcher) (sp : List Char)
      (oracle : Extractor),
      sp ≠ [] →
      (∀ r ∈ llm_issued_requests (crawl_multi_urls urls fetch) (some sp) oracle,
          r.length ≤ 4000) ∧
        (llm_issued_requests (crawl_multi_urls urls fetch) (some sp) oracle).length
            ≤ (crawl_multi_urls urls fetch).length ∧
        ((∀ md ∈ crawl_multi_urls urls fetch,
            (oracle sp (md.markdown.take 4000)).isOk = true) →
          (llm_issued_requests (crawl_multi_urls urls fetch) (some sp)
              oracle).length
            = (crawl_multi_urls urls fetch).length) := by
  intro urls fetch sp oracle hsp
  have hall : ∀ md ∈ crawl_multi_urls urls fetch, md.markdown ≠ [] :=
    fun md hmd => crawl_markdown_ne_nil hmd
  unfold llm_issued_requests
  by_cases hp : crawl_multi_urls urls fetch = []
  · rw [if_pos (Or.inl hp)]
    refine ⟨fun r hr => absurd hr (List.not_mem_nil r), by simp, fun _ => ?_⟩
    rw [hp]
    rfl
  · have htr : truthyOpt (some sp) = true := by simp [truthyOpt, hsp]
    rw [if_neg (by simp [hp, htr])]
    refine ⟨?_, ?_, ?_⟩
    · intro r hr
      exact mem_llmIssuedLoop_length_le oracle sp _ r hr
    · exact length_llmIssuedLoop_le oracle sp _
    · intro hok
      show (llmIssuedLoop oracle sp (crawl_multi_urls urls fetch)).length
        = (crawl_multi_urls urls fetch).length
      rw [llmIssuedLoop_all_ok oracle sp _ hall hok, List.length_map]

/-- C8 (witness): the amended theorem applied to a concrete batch whose only
page's extractor call succeeds. -/
theorem C8_witness :
    (llm_issued_requests (crawl_multi_urls [seedSelf] fetchSelf) (some spC)
        oracleSel).length
      = (crawl_multi_urls [seedSelf] fetchSelf).length :=
  (C8_truncation_sequential_calls [seedSelf] fetchSelf spC oracleSel
    (by decide)).2.2 (by decide)

/-- C9 (counterexample): in a concrete run the URL list handed to the
stage-2 fetch is in first-insertion order, not lexicographic order: its first
element is lexicographically greater than its second, so no sort was
applied. -/
theorem C9_counterexample :
    pipeline_urls_to_crawl none (crawl_multi_urls [seedRoot] fetchTwo) false
        oracleFail = [urlB2, urlA2] ∧
      lexLe urlB2 urlA2 = false := by
  decide

/-- C9 (amended): the discovered URL collection handed to stage 2 by the
regex path is deduplicated, but it is not sorted — the set's iteration order
is passed through unchanged. -/
theorem C9_dedup_without_sort :
    ∀ (prompt : Option (List Char)) (mds : List MarkdownEntry)
      (oracle : Extractor),
      (pipeline_urls_to_crawl prompt mds false oracle).Nodup := by
  intro prompt mds oracle
  rw [pipeline_urls_to_crawl_regex_path]
  exact nodup_extract_urls_from_markdowns_with_regex mds

/-- C10: running the pipeline with LLM extraction requested but no system
prompt configured silently behaves exactly like a regex-extraction run, and a
direct call to the LLM extraction operation without a prompt returns the
empty list rather than failing. -/
theorem C10_silent_fallback :
    ∀ (urls : List (List Char)) (fetch : Fetcher) (oracle : Extractor)
      (mds : List MarkdownEntry),
      run_crawling_pipeline none urls true fetch oracle
          = run_crawling_pipeline none urls false fetch oracle ∧
        extract_urls_from_markdown_with_llm mds none oracle = [] := by
  intro urls fetch oracle mds
  constructor
  · unfold run_crawling_pipeline
    simp only [pipeline_urls_to_crawl_none_prompt]
  · exact extract_llm_none_prompt mds oracle
